import Mathlib

/-!
Verification development for the `ST_filter` repository
(`ST_filter/ST_filter.py`): identification of statistically significant
ties in a temporal network via the fitness/configuration null model of
Kobayashi, Takaguchi and Barrat (2019).

Embedding conventions, used throughout:
* real (float) arithmetic is modelled by `ℚ` — every operation the source
  performs on these values is a field operation, and exact rationals make
  the definitions executable;
* a numpy matrix is modelled by a function `ℕ → ℕ → _` (theorems quantify
  indices below the relevant size), a numpy vector by `ℕ → _` or `List _`;
* IEEE NaN is modelled by `Option` with `none` = NaN; any numpy comparison
  against NaN yields `false`, which the `opt*` comparison helpers mirror;
* the output of `scipy.optimize.root` (the activity-parameter vector) is an
  opaque real vector: the tester stage is embedded as a function of that
  vector, and theorems about the tester quantify over it.
-/

/-- Value of the binomial survival function computed by
`scipy.stats.binom.sf(k, n, p)` for a success probability `p` inside
`[0,1]`: `P(X > k) = 1 - cdf(k)` for `X ~ Binomial(n, p)`, i.e. the sum of
the probability mass strictly above `k`. -/
def binomSFval (k n : ℕ) (p : ℚ) : ℚ :=
  ∑ j in Finset.Icc (k + 1) n, (n.choose j : ℚ) * p ^ j * (1 - p) ^ (n - j)

/-- `scipy.stats.binom.sf(k, n, p)`: NaN (`none`) when `p` lies outside
`[0,1]`, otherwise `P(X > k)`. -/
def binomSF (k n : ℕ) (p : ℚ) : Option ℚ :=
  if 0 ≤ p ∧ p ≤ 1 then some (binomSFval k n p) else none

/-- The p-value formula stated by the specification (§4.4): the
probability `P(X ≥ k)` of observing at least `k` successes under
`X ~ Binomial(n, p)`. Defined from the spec's words, to be compared
against the source's `binomSF` (refinement check for claim C5). -/
def specBinomGE (k n : ℕ) (p : ℚ) : ℚ :=
  ∑ j in Finset.Icc k n, (n.choose j : ℚ) * p ^ j * (1 - p) ^ (n - j)

/-- Entry `(i,j)` of
`p_mat = stat.binom.sf(k=Adj_all, n=tau, p=u) + np.diag(np.nan + np.ones(len(Adj_all)))`
(ST_filter.py lines 113, 205 and 325 — the expression is identical in the
three entry points). `u = x xᵀ` is the probability matrix built from the
activity parameters `x`; adding the `np.diag(np.nan + ...)` term forces
every diagonal entry to NaN and leaves off-diagonal entries unchanged. -/
def pMat (Adj : ℕ → ℕ → ℕ) (tau : ℕ) (x : ℕ → ℚ) (i j : ℕ) : Option ℚ :=
  if i = j then none else binomSF (Adj i j) tau (x i * x j)

/-- Elementwise numpy comparison `p <= alpha` where `p` may be NaN:
a NaN entry compares `false`. -/
def optLE : Option ℚ → ℚ → Bool
  | none, _ => false
  | some q, a => decide (q ≤ a)

/-- Elementwise numpy comparison `p < alpha` where `p` may be NaN:
a NaN entry compares `false`. -/
def optLT : Option ℚ → ℚ → Bool
  | none, _ => false
  | some q, a => decide (q < a)

/-- `scipy.stats.binom.isf(q, n, p)` in exact arithmetic: the smallest
integer `k ≥ -1` with `sf(k) ≤ q` (where `sf(-1) = 1`), and NaN (`none`)
when `p` or `q` lies outside `[0,1]`. For `q < 1` the result is the first
`k ∈ [0, n]` whose survival value is `≤ q`; the `getD n` default is never
reached there, since `sf(n) = 0 ≤ q`. -/
def binomISF (q : ℚ) (n : ℕ) (p : ℚ) : Option ℤ :=
  if (0 ≤ p ∧ p ≤ 1) ∧ 0 ≤ q ∧ q ≤ 1 then
    if 1 ≤ q then some (-1)
    else
      some ((((List.range (n + 1)).find?
        (fun k => decide (binomSFval k n p ≤ q))).getD n : ℕ) : ℤ)
  else none

/-- Elementwise numpy comparison `Adj_all > isf(...)` where the
inverse-survival value may be NaN: comparison against NaN is `false`. -/
def natGTisf : ℕ → Option ℤ → Bool
  | _, none => false
  | m, some t => decide (t < (m : ℤ))

/-- Significance matrix of the snapshot-stack entry point `ST_filter`
(ST_filter.py lines 116-124), as a function of the aggregate matrix, the
snapshot count, the activity parameters returned by the solver, the level
`alpha` and the `judge` string:
* `judge = "p_val"`: `np.array(Adj_all > 0, int) * np.array(p_mat <= alpha, int)`;
* `judge = "inv_binom"`: `np.array(Adj_all > stat.binom.isf(q=alpha, n=tau, p=u), int)`;
* anything else: `np.array(p_mat <= alpha, int)` (no existence guard),
  plus a printed caution (a non-fatal side effect, not part of the value). -/
def AdjSigST (Adj : ℕ → ℕ → ℕ) (tau : ℕ) (x : ℕ → ℚ) (alpha : ℚ)
    (judge : String) (i j : ℕ) : ℕ :=
  if judge = "p_val" then
    (if 0 < Adj i j then 1 else 0) *
      (if optLE (pMat Adj tau x i j) alpha then 1 else 0)
  else if judge = "inv_binom" then
    if natGTisf (Adj i j) (binomISF alpha tau (x i * x j)) then 1 else 0
  else
    if optLE (pMat Adj tau x i j) alpha then 1 else 0

/-- Significance matrix of the aggregate-matrix entry point `ST_filter_aat`
(ST_filter.py lines 207-216). It differs from `AdjSigST` in using the
strict comparison `p_mat < alpha` both in the `"p_val"` branch (line 209)
and in the fallback branch (line 214). -/
def AdjSigAAT (Adj : ℕ → ℕ → ℕ) (tau : ℕ) (x : ℕ → ℚ) (alpha : ℚ)
    (judge : String) (i j : ℕ) : ℕ :=
  if judge = "p_val" then
    (if 0 < Adj i j then 1 else 0) *
      (if optLT (pMat Adj tau x i j) alpha then 1 else 0)
  else if judge = "inv_binom" then
    if natGTisf (Adj i j) (binomISF alpha tau (x i * x j)) then 1 else 0
  else
    if optLT (pMat Adj tau x i j) alpha then 1 else 0

/-- Significance matrix of the dense path of the edge-list entry point
`ST_filter_list` (ST_filter.py lines 328-336). The `"p_val"` branch uses
`p_mat <= alpha` (line 329) while the fallback branch uses the strict
`p_mat < alpha` (line 334). -/
def AdjSigList (Adj : ℕ → ℕ → ℕ) (tau : ℕ) (x : ℕ → ℚ) (alpha : ℚ)
    (judge : String) (i j : ℕ) : ℕ :=
  if judge = "p_val" then
    (if 0 < Adj i j then 1 else 0) *
      (if optLE (pMat Adj tau x i j) alpha then 1 else 0)
  else if judge = "inv_binom" then
    if natGTisf (Adj i j) (binomISF alpha tau (x i * x j)) then 1 else 0
  else
    if optLT (pMat Adj tau x i j) alpha then 1 else 0

/-! ### Aggregate matrix and objective functions of the edge-list entry point

The edge list reaching this stage has already been rewritten to integer
node indices; the snapshot-id column plays no role in the aggregate matrix
or the objective functions, so an edge row is modelled as the pair of its
two endpoint columns. -/

/-- Entry `(i,j)` of
`u_agg_mat = csr_matrix((data, (e_list.T)), shape=(N,N));`
`Adj_all = (u_agg_mat + u_agg_mat.T).toarray()` (ST_filter.py lines
291-294): `csr_matrix` sums duplicate coordinates, so the raw incidence
cell counts the rows equal to `(i,j)`, and `Adj_all` adds the transposed
count of rows equal to `(j,i)`. -/
def AdjAllList (E : List (ℕ × ℕ)) (i j : ℕ) : ℕ :=
  (E.map (fun r =>
    (if r.1 = i ∧ r.2 = j then 1 else 0) +
    (if r.1 = j ∧ r.2 = i then 1 else 0))).sum

/-- `H[i]` of the dense `obj_func` of `ST_filter_list` (lines 296-306):
`obj_mat = (Adj_all - tau*u)/(1-u)` with `u = x xᵀ`, and
`H = np.sum(obj_mat, axis=1) - np.diag(obj_mat)` — the full row sum minus
the diagonal term. -/
def denseH (E : List (ℕ × ℕ)) (tau N : ℕ) (x : ℕ → ℚ) (i : ℕ) : ℚ :=
  (∑ j in Finset.range N,
    ((AdjAllList E i j : ℚ) - tau * (x i * x j)) / (1 - x i * x j)) -
    ((AdjAllList E i i : ℚ) - tau * (x i * x i)) / (1 - x i * x i)

/-- The vector returned by the dense `obj_func` of `ST_filter_list`. -/
def denseObjFunc (E : List (ℕ × ℕ)) (tau N : ℕ) (x : ℕ → ℚ) : List ℚ :=
  (List.range N).map (denseH E tau N x)

/-- Contribution of one row of `search_list = np.sort(edge_list[:,[1,2]], axis=1)`
to histogram bin `j` in the memory-saving `obj_func` (lines 372-376 /
408-412): `edges = search_list[np.where(search_list==i)[0]]` selects the
rows having `i` in either (sorted) position, and
`mij = np.histogram(edges[np.where(edges!=i)], bins=N, range=(0,N))[0]`
counts their entries different from `i` into the bin of their value. The
per-row sort is inlined as `min`/`max`. The histogram's range clipping is
inert under the caller's precondition that node indices lie in `[0, N)`
(no value `≥ N` ever occurs), so it is omitted here; theorems carry that
precondition. -/
def mijRow (i j : ℕ) (r : ℕ × ℕ) : ℕ :=
  if min r.1 r.2 = i ∨ max r.1 r.2 = i then
    (if min r.1 r.2 ≠ i ∧ min r.1 r.2 = j then 1 else 0) +
    (if max r.1 r.2 ≠ i ∧ max r.1 r.2 = j then 1 else 0)
  else 0

/-- `mij[j]`: histogram of node `i`'s observed partners over the whole
edge list. -/
def mijCount (E : List (ℕ × ℕ)) (i j : ℕ) : ℕ := (E.map (mijRow i j)).sum

/-- Body of the task `sol(i)` inside the parallel memory-saving
`obj_func` (lines 369-379): `u = x[i]*x`, `res = (mij - tau*u)/(1 - u)`,
`res[i] = 0`, and the returned value is `res.sum()`. -/
def memoBodyPar (E : List (ℕ × ℕ)) (tau N : ℕ) (x : ℕ → ℚ) (i : ℕ) : ℚ :=
  ∑ j in Finset.range N,
    if j = i then 0
    else ((mijCount E i j : ℚ) - tau * (x i * x j)) / (1 - x i * x j)

/-- Body of one iteration of the sequential memory-saving `obj_func`
(lines 405-415), identical in the source to the parallel task body:
`u = x[i]*x`, `res = (mij - tau*u)/(1 - u)`, `res[i] = 0`,
`H[i] = res.sum()`. -/
def memoBodySeq (E : List (ℕ × ℕ)) (tau N : ℕ) (x : ℕ → ℚ) (i : ℕ) : ℚ :=
  ∑ j in Finset.range N,
    if j = i then 0
    else ((mijCount E i j : ℚ) - tau * (x i * x j)) / (1 - x i * x j)

/-- The parallel memory-saving `obj_func` (lines 364-384):
`executor.map(sol, range(N))` fans the pure tasks `sol(i)` out to a
thread pool and yields their results in argument order (the documented
semantics of `Executor.map`, independent of completion order); each task
only reads the immutable `x` and `search_list`, so the fan-out/fan-in is
modelled by its sequential semantics, and `H = np.array(list(result))`. -/
def objFuncPar (E : List (ℕ × ℕ)) (tau N : ℕ) (x : ℕ → ℚ) : List ℚ :=
  (List.range N).map (memoBodyPar E tau N x)

/-- The sequential memory-saving `obj_func` (lines 400-417):
`H = np.zeros(N)`, then `for i in range(N): H[i] = res.sum()` — an
in-place update of the `i`-th cell at each iteration. -/
def objFuncSeq (E : List (ℕ × ℕ)) (tau N : ℕ) (x : ℕ → ℚ) : List ℚ :=
  (List.range N).foldl (fun H i => H.set i (memoBodySeq E tau N x i))
    (List.replicate N 0)

/-! ### Label handling of the edge-list entry point

`np.array(edge_list)` renders a mixed-type edge list into a common string
dtype, so an edge row is modelled as the triple of its three cells'
string renderings `(snapshot id, node1, node2)`. Integer conversion of a
cell (`np.array(..., int)`, which raises `ValueError` on failure) is
modelled by `cellToNat?`, the nonnegative-decimal core of Python's
`int()` — the relevant domain, since node indices are nonnegative. -/

/-- The value of one decimal digit character, `none` otherwise. -/
def digit? (c : Char) : Option ℕ :=
  if c = '0' then some 0 else if c = '1' then some 1
  else if c = '2' then some 2 else if c = '3' then some 3
  else if c = '4' then some 4 else if c = '5' then some 5
  else if c = '6' then some 6 else if c = '7' then some 7
  else if c = '8' then some 8 else if c = '9' then some 9 else none

/-- Accumulate the decimal value of a digit string, `none` on the first
non-digit character. -/
def digitsToNat? (acc : ℕ) : List Char → Option ℕ
  | [] => some acc
  | c :: cs =>
    match digit? c with
    | some d => digitsToNat? (acc * 10 + d) cs
    | none => none

/-- Integer conversion of one cell of the string-rendered edge list:
succeeds exactly on nonempty all-digit strings, giving their decimal
value (the nonnegative-decimal core of Python's `int()`). -/
def cellToNat? (s : String) : Option ℕ :=
  match s.data with
  | [] => none
  | cs => digitsToNat? 0 cs

/-- The endpoint labels of the edge list: both node columns, in column
order (`edge_list.T[1]` then `edge_list.T[2]`), with multiplicity. -/
def nodeLabels (E : List (String × String × String)) : List String :=
  E.map (fun r => r.2.1) ++ E.map (fun r => r.2.2)

/-- `nodes = list(set(list(set(edge_list.T[1])) + list(set(edge_list.T[2]))))`
(line 274): a Python `set` enumerates its elements in an unspecified,
hash-dependent order (for strings it varies between processes), so the
`nodes` list is modelled as an arbitrary duplicate-free enumeration of
the label set — `out` is one of the lists the source can produce. -/
def IsSetEnum (xs out : List String) : Prop :=
  out.Nodup ∧ (∀ s ∈ out, s ∈ xs) ∧ (∀ s ∈ xs, s ∈ out)

instance (xs out : List String) : Decidable (IsSetEnum xs out) :=
  inferInstanceAs (Decidable (_ ∧ _ ∧ _))

/-- First-appearance order of labels over a scan of the concatenated
endpoint columns: keep each label's first occurrence, drop the rest.
Defined from the claim's words (claim C6 asserts `nodes` has this order),
for comparison with the admissible set enumerations. -/
def firstOccAux (seen : List String) : List String → List String
  | [] => []
  | a :: l => if a ∈ seen then firstOccAux seen l else a :: firstOccAux (a :: seen) l

/-- The deduplicated endpoint labels in order of first appearance. -/
def firstAppearOrder (E : List (String × String × String)) : List String :=
  firstOccAux [] (nodeLabels E)

/-- Evolution of one edge-list cell under
`for i in range(N): edge_list = np.where(edge_list == nodes[i], i, edge_list)`
(lines 282-283): `np.where` is elementwise, so each cell evolves
independently; a cell equal to `nodes[i]` at step `i` is overwritten with
the decimal rendering of `i` (numpy writes the integer `i` into the
string array). `i0` is the index of the first remaining step. -/
def rewriteVal (nodes : List String) (i0 : ℕ) (v : String) : String :=
  match nodes with
  | [] => v
  | l :: rest => rewriteVal rest (i0 + 1) (if v = l then Nat.repr i0 else v)

/-- `np.array(edge_list, int)` applied to one cell after rewriting
(line 284): parse the final string; `none` models the `ValueError` the
conversion raises on an unparsable cell. -/
def rewriteParse (nodes : List String) (v : String) : Option ℕ :=
  cellToNat? (rewriteVal nodes 0 v)

/-- Rewriting and integer conversion of one edge row (lines 282-284). -/
def convRow (nodes : List String) (r : String × String × String) :
    Option (ℕ × ℕ × ℕ) :=
  match rewriteParse nodes r.1, rewriteParse nodes r.2.1, rewriteParse nodes r.2.2 with
  | some s, some a, some b => some (s, a, b)
  | _, _, _ => none

/-- Rewriting and integer conversion of the whole edge list (lines
282-284); `none` models the uncaught `ValueError`, which aborts the
invocation. -/
def convertEdges (E : List (String × String × String)) (nodes : List String) :
    Option (List (ℕ × ℕ × ℕ)) :=
  match E with
  | [] => some []
  | r :: rest =>
    match convRow nodes r, convertEdges rest nodes with
    | some x, some xs => some (x :: xs)
    | _, _ => none

/-- Direct integer conversion of one edge row, as attempted by
`np.array(edge_list, int)` in the `try` branch (line 279). -/
def parseRow (r : String × String × String) : Option (ℕ × ℕ × ℕ) :=
  match cellToNat? r.1, cellToNat? r.2.1, cellToNat? r.2.2 with
  | some s, some a, some b => some (s, a, b)
  | _, _, _ => none

/-- Direct integer conversion of the whole edge list (line 279). -/
def convertDirect (E : List (String × String × String)) : Option (List (ℕ × ℕ × ℕ)) :=
  match E with
  | [] => some []
  | r :: rest =>
    match parseRow r, convertDirect rest with
    | some x, some xs => some (x :: xs)
    | _, _ => none

/-- Whether `np.array(edge_list, int)` succeeds on the raw edge list
(the `try` of lines 278-280): every cell — snapshot id and both
endpoints — parses as an integer. The source's `in_str` flag is the
negation of this. -/
def allIntE (E : List (String × String × String)) : Bool :=
  E.all (fun r => (cellToNat? r.1).isSome && (cellToNat? r.2.1).isSome && (cellToNat? r.2.2).isSome)

/-- Key set of the result bag returned by `ST_filter_list` with
`memorysave=True` (lines 432-437), given the set enumeration `nodes`
chosen for the label set; `none` models an invocation that aborts with
the uncaught `ValueError` of line 284. The estimation itself always
produces an `activ_params` value, so only the bag's keys are modelled. -/
def STlistMemResult (E : List (String × String × String)) (nodes : List String) :
    Option (List String) :=
  if allIntE E then some ["activ_params"]
  else
    match convertEdges E nodes with
    | some _ => some ["activ_params", "nodes"]
    | none => none

/-- Key set of the result bag returned by `ST_filter_list` with
`memorysave=False`, given the set enumeration `nodes` and a flag
`memFail` recording whether the dense construction raises `MemoryError`
(the whole dense computation, lines 289-348, runs inside the
`try ... except MemoryError` of lines 350-354: on `MemoryError` the
function prints guidance to retry with `memorysave=True` and returns
`None`). `none` models both that abort and the uncaught `ValueError` of
line 284. -/
def STlistDenseResult (E : List (String × String × String)) (nodes : List String)
    (memFail : Bool) : Option (List String) :=
  match (if allIntE E then convertDirect E else convertEdges E nodes) with
  | none => none
  | some _ =>
    if memFail then none
    else some (if allIntE E then ["Adj_sig", "Adj_all", "p_mat", "activ_params"]
      else ["Adj_sig", "Adj_all", "p_mat", "activ_params", "nodes"])


/-! ## Helper lemmas -/

/-- Folding in-place updates of cells `0, …, n-1` over a list of length at
least `n` rewrites its first `n` cells to `f 0, …, f (n-1)` and leaves the
rest. -/
theorem foldl_set_front {α : Type} (f : ℕ → α) :
    ∀ (n : ℕ) (L : List α), n ≤ L.length →
      (List.range n).foldl (fun H i => H.set i (f i)) L =
        ((List.range n).map f) ++ L.drop n := by
  intro n
  induction n with
  | zero => intro L _; simp
  | succ n ih =>
    intro L hL
    rw [List.range_succ, List.foldl_append, List.map_append, ih L (by omega)]
    have hlen : ((List.range n).map f).length = n := by simp
    have hn : n < L.length := by omega
    simp only [List.foldl_cons, List.foldl_nil, List.set_append, hlen]
    rw [if_neg (by omega), Nat.sub_self, List.drop_eq_getElem_cons hn,
      List.set_cons_zero]
    simp

/-- The in-place update loop `H = np.zeros(N); for i in range(N): H[i] = f i`
produces the same vector as mapping `f` over `range N`. -/
theorem foldl_set_replicate {α : Type} (f : ℕ → α) (d : α) (N : ℕ) :
    (List.range N).foldl (fun H i => H.set i (f i)) (List.replicate N d) =
      (List.range N).map f := by
  rw [foldl_set_front f N (List.replicate N d) (by simp)]
  simp

/-- Row-level agreement of the memory-saving histogram with the
symmetrized incidence count: for a row with distinct endpoints and a bin
`j ≠ i`, the histogram contribution equals the contribution to
`Adj_all[i][j]`. -/
theorem mijRow_eq_adjRow (i j a b : ℕ) (hab : a ≠ b) (hji : j ≠ i) :
    mijRow i j (a, b) =
      (if a = i ∧ b = j then 1 else 0) + (if a = j ∧ b = i then 1 else 0) := by
  rcases Nat.le_total a b with h | h
  · rw [mijRow]
    simp only [Nat.min_eq_left h, Nat.max_eq_right h]
    by_cases hai : a = i <;> by_cases hbi : b = i <;>
      by_cases haj : a = j <;> by_cases hbj : b = j <;> simp_all
  · rw [mijRow]
    simp only [Nat.min_eq_right h, Nat.max_eq_left h]
    by_cases hai : a = i <;> by_cases hbi : b = i <;>
      by_cases haj : a = j <;> by_cases hbj : b = j <;> simp_all

/-- For an edge list without self-edges and a bin `j ≠ i`, the
memory-saving histogram count coincides with the dense aggregate cell. -/
theorem mijCount_eq_AdjAllList (E : List (ℕ × ℕ)) (i j : ℕ)
    (hE : ∀ r ∈ E, r.1 ≠ r.2) (hji : j ≠ i) :
    mijCount E i j = AdjAllList E i j := by
  unfold mijCount AdjAllList
  congr 1
  refine List.map_congr_left fun r hr => ?_
  rcases r with ⟨a, b⟩
  exact mijRow_eq_adjRow i j a b (hE _ hr) hji

/-- Pointwise agreement of the memory-saving objective body with the dense
objective row, for a node index inside the matrix. -/
theorem memoBodySeq_eq_denseH (E : List (ℕ × ℕ)) (tau N : ℕ) (x : ℕ → ℚ)
    (i : ℕ) (hE : ∀ r ∈ E, r.1 ≠ r.2) (hi : i < N) :
    memoBodySeq E tau N x i = denseH E tau N x i := by
  unfold memoBodySeq denseH
  have hmem : i ∈ Finset.range N := Finset.mem_range.mpr hi
  rw [← Finset.add_sum_erase (Finset.range N)
    (fun j => ((AdjAllList E i j : ℚ) - tau * (x i * x j)) / (1 - x i * x j)) hmem]
  have hz :
      (fun j => if j = i then (0 : ℚ)
        else ((mijCount E i j : ℚ) - tau * (x i * x j)) / (1 - x i * x j)) i = 0 := by
    simp
  rw [← Finset.sum_erase (Finset.range N) hz]
  rw [Finset.sum_congr rfl (fun j hj => ?_)]
  · ring
  · have hji : j ≠ i := (Finset.mem_erase.mp hj).1
    rw [if_neg hji, mijCount_eq_AdjAllList E i j hE hji]

/-! ## Claim C10 -/

/-- Claim C10 (confirmed): in memory-saving mode the parallel objective
function — a fan-out of the pure per-node tasks `sol(i)` to a thread pool
whose results `executor.map` collects in argument order — returns exactly
the same residual vector, in the same node-index order, as the sequential
objective function; the estimator's behaviour does not depend on the
`paral` flag. -/
theorem claim10_parallel_obj_eq_sequential_obj
    (E : List (ℕ × ℕ)) (tau N : ℕ) (x : ℕ → ℚ) :
    objFuncPar E tau N x = objFuncSeq E tau N x := by
  unfold objFuncPar objFuncSeq
  rw [foldl_set_replicate]
  rfl

/-! ## Claim C2 -/

/-- Claim C2 (confirmed): for an edge list with node indices in `[0, N)`
and no self-edges, the memory-saving objective function (per-node
histogram over sorted incident rows) computes exactly the residual vector
of the dense objective function evaluated on the aggregate matrix built
from the same edge list. -/
theorem claim2_memorysave_obj_eq_dense_obj
    (E : List (ℕ × ℕ)) (tau N : ℕ) (x : ℕ → ℚ)
    (hE : ∀ r ∈ E, r.1 < N ∧ r.2 < N ∧ r.1 ≠ r.2) :
    objFuncSeq E tau N x = denseObjFunc E tau N x := by
  unfold objFuncSeq denseObjFunc
  rw [foldl_set_replicate]
  exact List.map_congr_left fun i hi =>
    memoBodySeq_eq_denseH E tau N x i (fun r hr => (hE r hr).2.2)
      (List.mem_range.mp hi)

/-- Witness for claim C2: a concrete 2-node edge list with a repeated edge
in both orientations, evaluated on a concrete candidate vector. -/
theorem claim2_witness :
    (∀ r ∈ [((0 : ℕ), (1 : ℕ)), (0, 1), (1, 0)], r.1 < 2 ∧ r.2 < 2 ∧ r.1 ≠ r.2) ∧
    objFuncSeq [(0, 1), (0, 1), (1, 0)] 2 2 (fun i => if i = 0 then 1/3 else 1/2) =
      denseObjFunc [(0, 1), (0, 1), (1, 0)] 2 2 (fun i => if i = 0 then 1/3 else 1/2) :=
  ⟨by decide,
    claim2_memorysave_obj_eq_dense_obj _ _ _ _ (by decide)⟩

/-! ## Claim C9 -/

/-- Claim C9 (confirmed): for an edge list without self-edges, the dense
aggregate matrix counts, at each off-diagonal cell `(i,j)`, the edge rows
whose endpoint pair is `{i,j}` in either order; it is symmetric and has
zero diagonal. -/
theorem claim9_AdjAll_counts_unordered_pairs (E : List (ℕ × ℕ)) (i j : ℕ)
    (hE : ∀ r ∈ E, r.1 ≠ r.2) :
    (i ≠ j →
      AdjAllList E i j = E.countP (fun r => decide (r = (i, j) ∨ r = (j, i)))) ∧
    AdjAllList E i j = AdjAllList E j i ∧
    AdjAllList E i i = 0 := by
  refine ⟨fun hij => ?_, ?_, ?_⟩
  · induction E with
    | nil => simp [AdjAllList]
    | cons r rest ih =>
      have hr : r.1 ≠ r.2 := hE r (by simp)
      have hrest := ih (fun s hs => hE s (by simp [hs]))
      rcases r with ⟨a, b⟩
      simp only [AdjAllList, List.map_cons, List.sum_cons, List.countP_cons] at hrest ⊢
      rw [hrest]
      by_cases hai : a = i <;> by_cases hbj : b = j <;>
        by_cases haj : a = j <;> by_cases hbi : b = i <;> simp_all <;> omega
  · unfold AdjAllList
    congr 1
    refine List.map_congr_left fun r _ => add_comm _ _
  · unfold AdjAllList
    have : ∀ r ∈ E, ((if r.1 = i ∧ r.2 = i then 1 else 0) +
        (if r.1 = i ∧ r.2 = i then (1 : ℕ) else 0)) = 0 := by
      intro r hr
      have := hE r hr
      rw [if_neg (fun h => this (h.1.trans h.2.symm))]
    rw [List.map_congr_left this]
    simp

/-- Witness for claim C9: a concrete edge list containing the pair `{0,1}`
in both orientations plus an unrelated edge. -/
theorem claim9_witness :
    (∀ r ∈ [((0 : ℕ), (1 : ℕ)), (1, 0), (1, 2)], r.1 ≠ r.2) ∧ (0 : ℕ) ≠ 1 ∧
    AdjAllList [(0, 1), (1, 0), (1, 2)] 0 1 =
      List.countP (fun r => decide (r = (0, 1) ∨ r = (1, 0))) [(0, 1), (1, 0), (1, 2)] ∧
    AdjAllList [(0, 1), (1, 0), (1, 2)] 0 1 = AdjAllList [(0, 1), (1, 0), (1, 2)] 1 0 ∧
    AdjAllList [(0, 1), (1, 0), (1, 2)] 0 0 = 0 :=
  ⟨by decide, by decide,
    (claim9_AdjAll_counts_unordered_pairs _ 0 1 (by decide)).1 (by decide),
    (claim9_AdjAll_counts_unordered_pairs _ 0 1 (by decide)).2.1,
    (claim9_AdjAll_counts_unordered_pairs _ 0 0 (by decide)).2.2⟩

/-! ## Claim C1 -/

/-- If the significance test compares the observed count against the
inverse survival value at a level `q < 1`, a positive result forces at
least one observed co-occurrence: for `q < 1` the inverse survival value
is a nonnegative integer (only `q ≥ 1` reaches `-1`). -/
theorem natGTisf_binomISF_pos (m : ℕ) (q : ℚ) (n : ℕ) (p : ℚ) (hq : q < 1)
    (h : natGTisf m (binomISF q n p) = true) : 0 < m := by
  unfold binomISF at h
  by_cases hv : (0 ≤ p ∧ p ≤ 1) ∧ 0 ≤ q ∧ q ≤ 1
  · rw [if_pos hv, if_neg (not_le.mpr hq)] at h
    simp only [natGTisf, decide_eq_true_eq] at h
    omega
  · rw [if_neg hv] at h
    exact absurd h (by simp [natGTisf])

/-- Counterexample to claim C1 as stated: under the fallback judging
policy (any `judge` other than `"p_val"` and `"inv_binom"`) the existence
guard is absent, so a pair with zero observed co-occurrence whose modelled
tie probability is `0` (p-value `0 ≤ alpha`) is flagged significant. -/
theorem claim1_counterexample :
    AdjSigST (fun _ _ => 0) 1 (fun _ => 0) (1/20) "judge_typo" 0 1 = 1 ∧
    (fun _ _ => (0 : ℕ)) 0 1 = 0 := by
  constructor
  · unfold AdjSigST
    rw [if_neg (by decide), if_neg (by decide)]
    norm_num [pMat, binomSF, binomSFval, optLE]
  · rfl

/-- Claim C1 (amended): significance implies at least one observed
co-occurrence under the two documented judging policies — unconditionally
for `"p_val"`, and for `"inv_binom"` whenever `alpha < 1` — in all three
entry points. (The fallback policy violates the invariant, see
`claim1_counterexample`; `"inv_binom"` with `alpha ≥ 1` also can, since
the inverse survival value is then `-1`.) -/
theorem claim1_amended (Adj : ℕ → ℕ → ℕ) (tau : ℕ) (x : ℕ → ℚ) (alpha : ℚ)
    (judge : String) (i j : ℕ)
    (hjudge : judge = "p_val" ∨ (judge = "inv_binom" ∧ alpha < 1)) :
    (AdjSigST Adj tau x alpha judge i j = 1 → 0 < Adj i j) ∧
    (AdjSigAAT Adj tau x alpha judge i j = 1 → 0 < Adj i j) ∧
    (AdjSigList Adj tau x alpha judge i j = 1 → 0 < Adj i j) := by
  rcases hjudge with hj | ⟨hj, halpha⟩
  · subst hj
    refine ⟨?_, ?_, ?_⟩ <;>
      · intro h
        by_cases hpos : 0 < Adj i j
        · exact hpos
        · first
          | rw [AdjSigST, if_pos rfl, if_neg hpos, zero_mul] at h; exact absurd h one_ne_zero.symm
          | rw [AdjSigAAT, if_pos rfl, if_neg hpos, zero_mul] at h; exact absurd h one_ne_zero.symm
          | rw [AdjSigList, if_pos rfl, if_neg hpos, zero_mul] at h; exact absurd h one_ne_zero.symm
  · subst hj
    refine ⟨?_, ?_, ?_⟩ <;>
      · intro h
        by_cases hb : natGTisf (Adj i j) (binomISF alpha tau (x i * x j)) = true
        · exact natGTisf_binomISF_pos _ _ _ _ halpha hb
        · first
          | rw [AdjSigST, if_neg (by decide), if_pos rfl, if_neg hb] at h; exact absurd h (by norm_num)
          | rw [AdjSigAAT, if_neg (by decide), if_pos rfl, if_neg hb] at h; exact absurd h (by norm_num)
          | rw [AdjSigList, if_neg (by decide), if_pos rfl, if_neg hb] at h; exact absurd h (by norm_num)

/-- Witness for the amended claim C1, at the `"p_val"` policy and a
concrete input. -/
theorem claim1_witness :
    ("p_val" = "p_val" ∨ ("p_val" = "inv_binom" ∧ (1/20 : ℚ) < 1)) ∧
    ((AdjSigST (fun _ _ => 1) 2 (fun _ => 1/2) (1/20) "p_val" 0 1 = 1 →
        0 < (fun _ _ => (1 : ℕ)) 0 1) ∧
      (AdjSigAAT (fun _ _ => 1) 2 (fun _ => 1/2) (1/20) "p_val" 0 1 = 1 →
        0 < (fun _ _ => (1 : ℕ)) 0 1) ∧
      (AdjSigList (fun _ _ => 1) 2 (fun _ => 1/2) (1/20) "p_val" 0 1 = 1 →
        0 < (fun _ _ => (1 : ℕ)) 0 1)) :=
  ⟨Or.inl rfl, claim1_amended _ 2 _ (1/20) "p_val" 0 1 (Or.inl rfl)⟩

/-! ## Claim C3 -/

/-- Counterexample to claim C3 as stated: at an unrecognized judge value
the aggregate-matrix entry point flags a pair with zero observed
co-occurrence (its fallback omits the existence guard), while the same
entry point under `judge = "p_val"` leaves it at `0` — so the fallback
does not reproduce the `"p_val"` significance matrix. -/
theorem claim3_counterexample :
    AdjSigAAT (fun _ _ => 0) 1 (fun _ => 0) (1/20) "judge_typo" 0 1 = 1 ∧
    AdjSigAAT (fun _ _ => 0) 1 (fun _ => 0) (1/20) "p_val" 0 1 = 0 := by
  constructor
  · unfold AdjSigAAT
    rw [if_neg (by decide), if_neg (by decide)]
    norm_num [pMat, binomSF, binomSFval, optLT]
  · unfold AdjSigAAT
    rw [if_pos rfl]
    norm_num

/-- Claim C3 (amended): on any judge value other than `"p_val"` and
`"inv_binom"`, each entry point prints a non-fatal caution and computes
the significance matrix from the p-values WITHOUT the existence guard —
with the comparison `p_mat <= alpha` in the snapshot-stack entry point
but the strict `p_mat < alpha` in the aggregate-matrix and edge-list
entry points. This generally differs from the same entry point's
`"p_val"` output (see `claim3_counterexample`). -/
theorem claim3_amended (Adj : ℕ → ℕ → ℕ) (tau : ℕ) (x : ℕ → ℚ) (alpha : ℚ)
    (judge : String) (i j : ℕ)
    (h1 : judge ≠ "p_val") (h2 : judge ≠ "inv_binom") :
    AdjSigST Adj tau x alpha judge i j =
      (if optLE (pMat Adj tau x i j) alpha then 1 else 0) ∧
    AdjSigAAT Adj tau x alpha judge i j =
      (if optLT (pMat Adj tau x i j) alpha then 1 else 0) ∧
    AdjSigList Adj tau x alpha judge i j =
      (if optLT (pMat Adj tau x i j) alpha then 1 else 0) := by
  refine ⟨?_, ?_, ?_⟩
  · rw [AdjSigST, if_neg h1, if_neg h2]
  · rw [AdjSigAAT, if_neg h1, if_neg h2]
  · rw [AdjSigList, if_neg h1, if_neg h2]

/-- Witness for the amended claim C3 at a concrete unrecognized judge
value and concrete input. -/
theorem claim3_witness :
    (("judge_typo" : String) ≠ "p_val" ∧ ("judge_typo" : String) ≠ "inv_binom") ∧
    (AdjSigST (fun _ _ => 1) 2 (fun _ => 1/2) (1/20) "judge_typo" 0 1 =
      (if optLE (pMat (fun _ _ => 1) 2 (fun _ => 1/2) 0 1) (1/20) then 1 else 0) ∧
    AdjSigAAT (fun _ _ => 1) 2 (fun _ => 1/2) (1/20) "judge_typo" 0 1 =
      (if optLT (pMat (fun _ _ => 1) 2 (fun _ => 1/2) 0 1) (1/20) then 1 else 0) ∧
    AdjSigList (fun _ _ => 1) 2 (fun _ => 1/2) (1/20) "judge_typo" 0 1 =
      (if optLT (pMat (fun _ _ => 1) 2 (fun _ => 1/2) 0 1) (1/20) then 1 else 0)) :=
  ⟨⟨by decide, by decide⟩,
    claim3_amended _ 2 _ (1/20) "judge_typo" 0 1 (by decide) (by decide)⟩

/-! ## Claim C4 -/

/-- Claim C4 (confirmed): under the `"p_val"` policy the aggregate-matrix
entry point flags an entry exactly when its p-value is strictly below
`alpha` (and the pair is observed), whereas the snapshot-stack and dense
edge-list entry points flag it when the p-value is `≤ alpha` (and the
pair is observed); at a concrete input whose off-diagonal p-value equals
`alpha` exactly, with the pair observed, the aggregate-matrix entry point
answers `0` while the other two answer `1`. -/
theorem claim4_pval_boundary_inconsistency :
    (∀ (Adj : ℕ → ℕ → ℕ) (tau : ℕ) (x : ℕ → ℚ) (alpha : ℚ) (i j : ℕ),
      AdjSigAAT Adj tau x alpha "p_val" i j =
        (if 0 < Adj i j then 1 else 0) *
          (if optLT (pMat Adj tau x i j) alpha then 1 else 0)) ∧
    (∀ (Adj : ℕ → ℕ → ℕ) (tau : ℕ) (x : ℕ → ℚ) (alpha : ℚ) (i j : ℕ),
      AdjSigST Adj tau x alpha "p_val" i j =
        (if 0 < Adj i j then 1 else 0) *
          (if optLE (pMat Adj tau x i j) alpha then 1 else 0)) ∧
    (∀ (Adj : ℕ → ℕ → ℕ) (tau : ℕ) (x : ℕ → ℚ) (alpha : ℚ) (i j : ℕ),
      AdjSigList Adj tau x alpha "p_val" i j =
        (if 0 < Adj i j then 1 else 0) *
          (if optLE (pMat Adj tau x i j) alpha then 1 else 0)) ∧
    (pMat (fun _ _ => 1) 2 (fun i => if i = 0 then 1 else 1/2) 0 1 = some (1/4) ∧
      0 < (fun _ _ => (1 : ℕ)) 0 1 ∧
      AdjSigST (fun _ _ => 1) 2 (fun i => if i = 0 then 1 else 1/2) (1/4) "p_val" 0 1 = 1 ∧
      AdjSigList (fun _ _ => 1) 2 (fun i => if i = 0 then 1 else 1/2) (1/4) "p_val" 0 1 = 1 ∧
      AdjSigAAT (fun _ _ => 1) 2 (fun i => if i = 0 then 1 else 1/2) (1/4) "p_val" 0 1 = 0) := by
  refine ⟨?_, ?_, ?_, ?_, by norm_num, ?_, ?_, ?_⟩
  · intro Adj tau x alpha i j; rw [AdjSigAAT, if_pos rfl]
  · intro Adj tau x alpha i j; rw [AdjSigST, if_pos rfl]
  · intro Adj tau x alpha i j; rw [AdjSigList, if_pos rfl]
  · norm_num [pMat, binomSF, binomSFval]
  · rw [AdjSigST, if_pos rfl]; norm_num [pMat, binomSF, binomSFval, optLE]
  · rw [AdjSigList, if_pos rfl]; norm_num [pMat, binomSF, binomSFval, optLE]
  · rw [AdjSigAAT, if_pos rfl]; norm_num [pMat, binomSF, binomSFval, optLT]

/-! ## Claim C5 -/

/-- Counterexample to claim C5 as stated: with `tau = 1`, activity
parameters `1/2` (tie probability `1/4`) and one observed co-occurrence,
the code's p-value entry is `sf(1) = P(X > 1) = 0`, while the claimed
formula `P(X ≥ 1)` gives `1/4`. -/
theorem claim5_counterexample :
    pMat (fun i j => if i = j then 0 else 1) 1 (fun _ => 1/2) 0 1 = some 0 ∧
    specBinomGE ((fun i j => if i = j then (0 : ℕ) else 1) 0 1) 1 ((1/2 : ℚ) * (1/2)) = 1/4 ∧
    some (0 : ℚ) ≠ some (1/4 : ℚ) := by
  refine ⟨?_, ?_, by norm_num⟩
  · norm_num [pMat, binomSF, binomSFval]
  · norm_num [specBinomGE]

/-- Claim C5 (amended): in every non-memory-saving invocation, each
off-diagonal p-value entry whose modelled tie probability
`u = x i * x j` lies in `[0,1]` equals the binomial survival probability
`P(X ≥ Adj_all[i][j] + 1) = P(X > Adj_all[i][j])` for
`X ~ Binomial(tau, u)` — one observation stricter than the claimed
`P(X ≥ Adj_all[i][j])` — and every diagonal entry is NaN. (For `u`
outside `[0,1]`, scipy returns NaN; the three entry points share the
p-value expression, embedded once as `pMat`.) -/
theorem claim5_amended (Adj : ℕ → ℕ → ℕ) (tau : ℕ) (x : ℕ → ℚ) (i j : ℕ)
    (hij : i ≠ j) (h0 : 0 ≤ x i * x j) (h1 : x i * x j ≤ 1) :
    pMat Adj tau x i j = some (specBinomGE (Adj i j + 1) tau (x i * x j)) ∧
    ∀ k, pMat Adj tau x k k = none := by
  constructor
  · rw [pMat, if_neg hij, binomSF, if_pos ⟨h0, h1⟩]
    rfl
  · intro k
    rw [pMat, if_pos rfl]

/-- Witness for the amended claim C5 at a concrete input. -/
theorem claim5_witness :
    ((0 : ℕ) ≠ 1 ∧ (0 : ℚ) ≤ (1/2 : ℚ) * (1/2) ∧ (1/2 : ℚ) * (1/2) ≤ 1) ∧
    (pMat (fun _ _ => 1) 1 (fun _ => 1/2) 0 1 =
      some (specBinomGE ((fun _ _ => (1 : ℕ)) 0 1 + 1) 1 ((1/2 : ℚ) * (1/2))) ∧
    ∀ k, pMat (fun _ _ => 1) 1 (fun _ => 1/2) k k = none) :=
  ⟨⟨by decide, by norm_num, by norm_num⟩,
    claim5_amended (fun _ _ => 1) 1 (fun _ => 1/2) 0 1 (by decide) (by norm_num) (by norm_num)⟩

/-! ## Claim C6 -/

/-- A cell whose value is not among the node labels is never touched by
the rewriting loop. -/
theorem rewriteVal_not_mem (nodes : List String) (i0 : ℕ) (v : String)
    (hv : v ∉ nodes) : rewriteVal nodes i0 v = v := by
  induction nodes generalizing i0 with
  | nil => rfl
  | cons l rest ih =>
    have hvl : v ≠ l := fun h => hv (by rw [h]; exact List.mem_cons_self l rest)
    rw [rewriteVal, if_neg hvl]
    exact ih (i0 + 1) (fun h => hv (List.mem_cons_of_mem l h))

/-- Under a duplicate-free label list none of whose members is the decimal
rendering of a step index, the rewriting loop sends the `k`-th label to
the decimal rendering of step `i0 + k`. -/
theorem rewriteVal_get (nodes : List String) (i0 k : ℕ) (hk : k < nodes.length)
    (hnd : nodes.Nodup) (hrep : ∀ m, m < i0 + nodes.length → Nat.repr m ∉ nodes) :
    rewriteVal nodes i0 (nodes.get ⟨k, hk⟩) = Nat.repr (i0 + k) := by
  induction nodes generalizing i0 k with
  | nil => exact absurd hk (by simp)
  | cons l rest ih =>
    cases k with
    | zero =>
      show rewriteVal (l :: rest) i0 l = Nat.repr (i0 + 0)
      rw [rewriteVal, if_pos rfl, Nat.add_zero]
      refine rewriteVal_not_mem rest (i0 + 1) (Nat.repr i0) (fun hmem => ?_)
      exact hrep i0 (by simp) (List.mem_cons_of_mem l hmem)
    | succ k =>
      have hkr : k < rest.length := by simpa using hk
      rw [List.get_cons_succ]
      have hne : rest.get ⟨k, hkr⟩ ≠ l := by
        intro h
        exact (List.nodup_cons.mp hnd).1 (h ▸ List.get_mem rest k hkr)
      rw [rewriteVal, if_neg hne]
      have := ih (i0 + 1) k hkr (List.nodup_cons.mp hnd).2
        (fun m hm hmem => hrep m (by simp only [List.length_cons]; omega)
          (List.mem_cons_of_mem l hmem))
      rw [this]
      congr 1
      omega

/-- Counterexample to claim C6 as stated, at the edge list
`[("t", "a", "0")]`. The `nodes` list is produced by Python `set`
iteration, whose order is unspecified: the admissible enumeration
`["0", "a"]` is not the first-appearance order `["a", "0"]`; and under the
admissible enumeration `["a", "0"]` the sequential `np.where` rewriting
maps the endpoint label `"a"` to `"1"` (its replacement value `"0"` is
captured by the later step for the label `"0"`), not to the decimal form
`"0"` of its index in `nodes`. -/
theorem claim6_counterexample :
    IsSetEnum (nodeLabels [("t", "a", "0")]) ["0", "a"] ∧
    (["0", "a"] : List String) ≠ firstAppearOrder [("t", "a", "0")] ∧
    IsSetEnum (nodeLabels [("t", "a", "0")]) ["a", "0"] ∧
    rewriteVal ["a", "0"] 0 "a" = "1" ∧
    Nat.repr (List.indexOf "a" ["a", "0"]) = "0" ∧
    ("1" : String) ≠ "0" := by decide

/-- Claim C6 (amended): for an edge-list input with a non-numeric label,
`nodes` is some duplicate-free enumeration of the deduplicated endpoint
label set — its order is implementation-defined (Python `set` iteration),
not necessarily first-appearance — hence a bijection from positions onto
the label set; and provided no label collides with the decimal rendering
of a position in `[0, N)`, the rewriting loop sends the label at position
`k` to the decimal rendering of `k` (which the subsequent integer
conversion parses as `k`). -/
theorem claim6_amended (E : List (String × String × String)) (nodes : List String)
    (h : IsSetEnum (nodeLabels E) nodes) :
    (nodes.Nodup ∧ ∀ l, l ∈ nodes ↔ l ∈ nodeLabels E) ∧
    ((∀ m < nodes.length, Nat.repr m ∉ nodes) →
      ∀ k (hk : k < nodes.length),
        rewriteVal nodes 0 (nodes.get ⟨k, hk⟩) = Nat.repr k) := by
  refine ⟨⟨h.1, fun l => ⟨fun hl => h.2.1 l hl, fun hl => h.2.2 l hl⟩⟩, ?_⟩
  intro hrep k hk
  have := rewriteVal_get nodes 0 k hk h.1 (by simpa using hrep)
  simpa using this

/-- Witness for the amended claim C6 at a concrete labelled edge list and
a concrete admissible enumeration. -/
theorem claim6_witness :
    IsSetEnum (nodeLabels [("t", "b", "a")]) ["a", "b"] ∧
    (∀ m < (["a", "b"] : List String).length, Nat.repr m ∉ (["a", "b"] : List String)) ∧
    rewriteVal ["a", "b"] 0 "a" = Nat.repr 0 ∧
    rewriteVal ["a", "b"] 0 "b" = Nat.repr 1 :=
  ⟨by decide, by decide,
    (claim6_amended [("t", "b", "a")] ["a", "b"] (by decide)).2 (by decide) 0 (by decide),
    (claim6_amended [("t", "b", "a")] ["a", "b"] (by decide)).2 (by decide) 1 (by decide)⟩

/-! ## Claim C7 -/

/-- If the rewriting-and-conversion of the whole edge list succeeds, every
row's conversion succeeds. -/
theorem convertEdges_mem (E : List (String × String × String))
    (nodes : List String) (L : List (ℕ × ℕ × ℕ))
    (h : convertEdges E nodes = some L) :
    ∀ r ∈ E, convRow nodes r ≠ none := by
  induction E generalizing L with
  | nil => intro r hr; cases hr
  | cons e rest ih =>
    intro r hr
    rw [convertEdges] at h
    cases hce : convRow nodes e with
    | none => rw [hce] at h; cases h
    | some y =>
      rw [hce] at h
      cases hcr : convertEdges rest nodes with
      | none => rw [hcr] at h; cases h
      | some ys =>
        rcases List.mem_cons.mp hr with rfl | hr
        · rw [hce]; exact fun hc => by cases hc
        · exact ih ys hcr r hr

/-- Claim C7 (confirmed): every memory-saving invocation that returns a
result bag returns the key `activ_params`, returns the key `nodes`
exactly when some endpoint label is non-numeric, and returns none of
`Adj_sig`, `Adj_all`, `p_mat`. (When the only non-numeric cells sit in
the snapshot-id column the invocation does not return at all: such a cell
is never rewritten and the integer conversion raises.) -/
theorem claim7_memorysave_keys (E : List (String × String × String))
    (nodes : List String) (ks : List String)
    (hEnum : IsSetEnum (nodeLabels E) nodes)
    (hres : STlistMemResult E nodes = some ks) :
    "activ_params" ∈ ks ∧
    ("nodes" ∈ ks ↔ ∃ l ∈ nodeLabels E, cellToNat? l = none) ∧
    "Adj_sig" ∉ ks ∧ "Adj_all" ∉ ks ∧ "p_mat" ∉ ks := by
  by_cases hall : allIntE E = true
  · rw [STlistMemResult, if_pos hall] at hres
    obtain rfl : ks = ["activ_params"] := (Option.some.inj hres).symm
    refine ⟨by decide, ⟨fun hmem => absurd hmem (by decide), ?_⟩, by decide, by decide, by decide⟩
    rintro ⟨l, hl, hnone⟩
    have hALL := List.all_eq_true.mp hall
    rcases List.mem_append.mp hl with hl | hl <;>
      obtain ⟨r, hrE, rfl⟩ := List.mem_map.mp hl <;>
      · have := hALL r hrE
        simp only [Bool.and_eq_true] at this
        simp [hnone] at this
  · rw [STlistMemResult, if_neg hall] at hres
    cases hconv : convertEdges E nodes with
    | none => rw [hconv] at hres; cases hres
    | some L =>
      rw [hconv] at hres
      obtain rfl : ks = ["activ_params", "nodes"] := (Option.some.inj hres).symm
      refine ⟨by decide, ⟨fun _ => ?_, fun _ => by decide⟩, by decide, by decide, by decide⟩
      have hex : ∃ r ∈ E,
          ¬(((cellToNat? r.1).isSome && (cellToNat? r.2.1).isSome &&
            (cellToNat? r.2.2).isSome) = true) := by
        by_contra hc
        push_neg at hc
        exact hall (List.all_eq_true.mpr hc)
      obtain ⟨r, hrE, hbad⟩ := hex
      by_cases h1 : cellToNat? r.2.1 = none
      · exact ⟨r.2.1, List.mem_append.mpr (Or.inl (List.mem_map.mpr ⟨r, hrE, rfl⟩)), h1⟩
      by_cases h2 : cellToNat? r.2.2 = none
      · exact ⟨r.2.2, List.mem_append.mpr (Or.inr (List.mem_map.mpr ⟨r, hrE, rfl⟩)), h2⟩
      have hsid : cellToNat? r.1 = none := by
        cases hc : cellToNat? r.1 with
        | none => rfl
        | some v =>
          exfalso
          apply hbad
          simp [hc, Option.ne_none_iff_isSome.mp h1, Option.ne_none_iff_isSome.mp h2]
      by_cases hmem : r.1 ∈ nodes
      · exact ⟨r.1, hEnum.2.1 _ hmem, hsid⟩
      · exfalso
        apply convertEdges_mem E nodes L hconv r hrE
        have hrp : rewriteParse nodes r.1 = none := by
          rw [rewriteParse, rewriteVal_not_mem nodes 0 r.1 hmem, hsid]
        rw [convRow, hrp]

/-- Witness for claim C7: a concrete labelled edge list whose invocation
returns, under a concrete admissible enumeration. -/
theorem claim7_witness :
    (IsSetEnum (nodeLabels [("0", "a", "1")]) ["a", "1"] ∧
      STlistMemResult [("0", "a", "1")] ["a", "1"] = some ["activ_params", "nodes"]) ∧
    ("activ_params" ∈ ["activ_params", "nodes"] ∧
      ("nodes" ∈ ["activ_params", "nodes"] ↔
        ∃ l ∈ nodeLabels [("0", "a", "1")], cellToNat? l = none) ∧
      "Adj_sig" ∉ ["activ_params", "nodes"] ∧
      "Adj_all" ∉ ["activ_params", "nodes"] ∧
      "p_mat" ∉ ["activ_params", "nodes"]) :=
  ⟨⟨by decide, by decide⟩,
    claim7_memorysave_keys [("0", "a", "1")] ["a", "1"] ["activ_params", "nodes"]
      (by decide) (by decide)⟩

/-! ## Claim C8 -/

/-- Counterexample to the "only abort condition" part of claim C8: the
edge list `[("x", "0", "1")]` has integer node labels but a non-integer
snapshot id, so the `except` branch is taken, the snapshot-id cell `"x"`
matches no node label and is never rewritten, and the integer conversion
of line 284 — outside any `try` — raises `ValueError`: the dense
invocation returns no result although no memory exhaustion occurred
(`memFail = false`). -/
theorem claim8_counterexample :
    IsSetEnum (nodeLabels [("x", "0", "1")]) ["0", "1"] ∧
    STlistDenseResult [("x", "0", "1")] ["0", "1"] false = none := by decide

/-- Claim C8 (amended): in the dense edge-list path, memory exhaustion is
caught, guidance to retry with the memory-saving strategy is printed, and
the invocation returns no result; and once the label-to-index conversion
has succeeded, memory exhaustion is the only condition that aborts
without a result bag. The conversion itself, however, can also abort: a
non-integer snapshot id that is not a node label raises an uncaught
`ValueError` (see `claim8_counterexample`). -/
theorem claim8_amended (E : List (String × String × String))
    (nodes : List String) (memFail : Bool) :
    (memFail = true → STlistDenseResult E nodes memFail = none) ∧
    ((if allIntE E then convertDirect E else convertEdges E nodes) ≠ none →
      (STlistDenseResult E nodes memFail = none ↔ memFail = true)) := by
  constructor
  · intro hm
    rw [STlistDenseResult]
    cases hconv : (if allIntE E then convertDirect E else convertEdges E nodes) with
    | none => rfl
    | some L => simp [hm]
  · intro hconv
    rw [STlistDenseResult]
    cases hc : (if allIntE E then convertDirect E else convertEdges E nodes) with
    | none => exact absurd hc hconv
    | some L =>
      cases memFail with
      | false => simp
      | true => simp

/-- Witness for the amended claim C8: a memory-exhausted invocation on a
numeric edge list returns nothing, and a successful conversion without
memory exhaustion makes the no-result outcome equivalent to memory
exhaustion. -/
theorem claim8_witness :
    STlistDenseResult [("0", "0", "1")] [] true = none ∧
    (STlistDenseResult [("5", "2", "3")] [] false = none ↔ (false : Bool) = true) :=
  ⟨(claim8_amended [("0", "0", "1")] [] true).1 rfl,
    (claim8_amended [("5", "2", "3")] [] false).2 (by decide)⟩
